import Mathlib

/-!
Verification of the FlashVocab vocabulary/SRS study application.

Shallow embedding of the program's core logic:
  * `services/geminiService` — lookup caches (`wordCache`, `sentenceCache`)
    and the normalisation of cache keys in `lookupWord` / `lookupSentence`;
  * `components/StudySession` — `SRS_INTERVALS`, `handleRate`,
    `generateQuizOptions`, `handleCheckTyping`, the queue initialisation
    effect, and the view dispatch (mode-select / active / complete screens);
  * `App` — the due-item filter in `dueCount`, the study-queue construction
    in `onStartStudy`, and the stale-result suppression in `handleSearch`.

JavaScript numbers in the reachable domain (timestamps, day counts, SRS
levels) are small integers, so they are modelled as `Nat`.  Randomised
shuffles (`.sort(() => Math.random() - 0.5)`) are modelled as an explicit
shuffle function assumed to permute its input.  Asynchronous effects are
modelled by an explicit event-step function on a search state.
-/

/-- The record produced by the AI word lookup (`wordSchema` fields of
`geminiService` plus the two mutable SRS fields). -/
structure WordData where
  word : String
  meaning_vi : String
  definition_en : String
  ipa : String
  syllables : String
  spelling_tip : String
  part_of_speech : String
  example_en : String
  example_vi : String
  example_b2_en : String
  example_b2_vi : String
  root_word : String
  mnemonic : String
  synonyms : List String
  antonyms : List String
  word_family : List String
  collocations : List String
  srs_level : Option Nat
  next_review : Option Nat
  deriving DecidableEq, Repr

/-- The record produced by the AI sentence lookup (`sentenceSchema` fields
plus the two mutable SRS fields; the naturalness score is an integer in the
reachable domain). -/
structure SentenceData where
  sentence : String
  meaning_vi : String
  grammar_breakdown : String
  usage_context : String
  naturalness_score : Nat
  similar_sentences : List (String × String)
  srs_level : Option Nat
  next_review : Option Nat
  deriving DecidableEq, Repr

/-- `const SRS_INTERVALS = [1, 3, 7, 14, 30, 90, 180];` -/
def SRS_INTERVALS : List Nat := [1, 3, 7, 14, 30, 90, 180]

/-- The four grading buttons of `handleRate`. -/
inductive Rating where
  | fail
  | hard
  | good
  | easy
  deriving DecidableEq, Repr

/-- `sessionStats` state of `StudySession`. -/
structure SessionStats where
  reviewed : Nat
  forgotten : Nat
  deriving DecidableEq, Repr

/-- `useState({ reviewed: 0, forgotten: 0 })` — the initial session stats. -/
def initStats : SessionStats := ⟨0, 0⟩

/-- The body of `handleRate` acting on the current word: the `switch` on the
rating computes the new level from `currentWord.srs_level || 0`, `fail`
additionally increments `forgotten`; then
`nextReviewDate = Date.now() + days * 24 * 60 * 60 * 1000` and the item is
written back with only `srs_level` and `next_review` replaced, and
`reviewed` is incremented.  Indexing `SRS_INTERVALS[newLevel]` is modelled
with `getD _ 0`; every level the switch produces from an in-range input is
in range, so the default is never taken there. -/
def handleRate (w : WordData) (rating : Rating) (now : Nat)
    (stats : SessionStats) : WordData × SessionStats :=
  let level := w.srs_level.getD 0
  let newLevel :=
    match rating with
    | .fail => 0
    | .hard => max 0 level
    | .good => min (level + 1) (SRS_INTERVALS.length - 1)
    | .easy => min (level + 2) (SRS_INTERVALS.length - 1)
  let stats1 :=
    match rating with
    | .fail => { stats with forgotten := stats.forgotten + 1 }
    | _ => stats
  let days := SRS_INTERVALS.getD newLevel 0
  let nextReviewDate := now + days * 24 * 60 * 60 * 1000
  ({ w with srs_level := some newLevel, next_review := some nextReviewDate },
   { stats1 with reviewed := stats1.reviewed + 1 })

/-- C1: for every item (level `L = srs_level` with absent treated as 0) and
every grade, `handleRate` computes the new level as: `fail` gives 0 and
increments `forgotten` by exactly 1; `hard` gives `max 0 L` (unchanged);
`good` gives `min (L+1) lastIndex`; `easy` gives `min (L+2) lastIndex`,
where `lastIndex` is the last index of the interval table; no other grade
touches `forgotten`. -/
theorem handleRate_level_policy (w : WordData) (rating : Rating) (now : Nat)
    (stats : SessionStats) :
    ((handleRate w rating now stats).1.srs_level =
      some (match rating with
        | .fail => 0
        | .hard => max 0 (w.srs_level.getD 0)
        | .good => min (w.srs_level.getD 0 + 1) (SRS_INTERVALS.length - 1)
        | .easy => min (w.srs_level.getD 0 + 2) (SRS_INTERVALS.length - 1)))
    ∧ ((handleRate w rating now stats).2.forgotten =
        stats.forgotten + (if rating = .fail then 1 else 0)) := by
  cases rating <;> simp [handleRate]

/-- C2: for every grade and grading time `now`, when the input level is in
range (the data-model invariant), the updated item's `next_review` is
exactly `now + intervalTable[newLevel] * 86400000`, with the interval table
being the fixed monotonically increasing sequence `[1,3,7,14,30,90,180]`. -/
theorem handleRate_next_review (w : WordData) (rating : Rating) (now : Nat)
    (stats : SessionStats)
    (h : w.srs_level.getD 0 ≤ SRS_INTERVALS.length - 1) :
    ((handleRate w rating now stats).1.next_review =
      some (now +
        SRS_INTERVALS.getD ((handleRate w rating now stats).1.srs_level.getD 0) 0
          * 86400000))
    ∧ SRS_INTERVALS = [1, 3, 7, 14, 30, 90, 180]
    ∧ List.Pairwise (fun a b => a < b) SRS_INTERVALS := by
  refine ⟨?_, rfl, by decide⟩
  cases rating <;> simp [handleRate] <;> ring

/-- Witness for `handleRate_next_review` at a concrete item and time. -/
theorem handleRate_next_review_witness :
    (handleRate
        { word := "apple", meaning_vi := "", definition_en := "", ipa := "",
          syllables := "", spelling_tip := "", part_of_speech := "",
          example_en := "", example_vi := "", example_b2_en := "",
          example_b2_vi := "", root_word := "", mnemonic := "",
          synonyms := [], antonyms := [], word_family := [],
          collocations := [], srs_level := some 2, next_review := none }
        Rating.good 1000 initStats).1.next_review =
      some (1000 +
        SRS_INTERVALS.getD
          ((handleRate
              { word := "apple", meaning_vi := "", definition_en := "",
                ipa := "", syllables := "", spelling_tip := "",
                part_of_speech := "", example_en := "", example_vi := "",
                example_b2_en := "", example_b2_vi := "", root_word := "",
                mnemonic := "", synonyms := [], antonyms := [],
                word_family := [], collocations := [], srs_level := some 2,
                next_review := none }
              Rating.good 1000 initStats).1.srs_level.getD 0) 0 * 86400000) :=
  (handleRate_next_review _ Rating.good 1000 initStats (by decide)).1

/-- C10: the item written back by `handleRate` differs from the input item
only in `srs_level` and `next_review`; the identity text and every
AI-supplied content field are unchanged. -/
theorem handleRate_frame (w : WordData) (rating : Rating) (now : Nat)
    (stats : SessionStats) :
    ((handleRate w rating now stats).1.word = w.word)
    ∧ ((handleRate w rating now stats).1.meaning_vi = w.meaning_vi)
    ∧ ((handleRate w rating now stats).1.definition_en = w.definition_en)
    ∧ ((handleRate w rating now stats).1.ipa = w.ipa)
    ∧ ((handleRate w rating now stats).1.syllables = w.syllables)
    ∧ ((handleRate w rating now stats).1.spelling_tip = w.spelling_tip)
    ∧ ((handleRate w rating now stats).1.part_of_speech = w.part_of_speech)
    ∧ ((handleRate w rating now stats).1.example_en = w.example_en)
    ∧ ((handleRate w rating now stats).1.example_vi = w.example_vi)
    ∧ ((handleRate w rating now stats).1.example_b2_en = w.example_b2_en)
    ∧ ((handleRate w rating now stats).1.example_b2_vi = w.example_b2_vi)
    ∧ ((handleRate w rating now stats).1.root_word = w.root_word)
    ∧ ((handleRate w rating now stats).1.mnemonic = w.mnemonic)
    ∧ ((handleRate w rating now stats).1.synonyms = w.synonyms)
    ∧ ((handleRate w rating now stats).1.antonyms = w.antonyms)
    ∧ ((handleRate w rating now stats).1.word_family = w.word_family)
    ∧ ((handleRate w rating now stats).1.collocations = w.collocations) := by
  cases rating <;> simp [handleRate]

/-- The due predicate of `dueCount` in `App`:
`!w.next_review || w.next_review <= now` (an absent timestamp, or the falsy
timestamp 0, counts as due). -/
def isDue (nextReview : Option Nat) (now : Nat) : Bool :=
  match nextReview with
  | none => true
  | some t => (t == 0) || (t ≤ now)

/-- `dueCount` of `App`: the number of saved words plus saved sentences
whose `next_review` passes the due predicate. -/
def dueCount (savedWords : List WordData) (savedSentences : List SentenceData)
    (now : Nat) : Nat :=
  (savedWords.filter (fun w => isDue w.next_review now)).length +
    (savedSentences.filter (fun s => isDue s.next_review now)).length

/-- C3: the due-item filter counts an item as due exactly when its
`next_review` is unset or at most `now`; in particular an item with no
`next_review` is due, one with `next_review = now - 1` is due, and one with
`next_review = now + 1` is not due. -/
theorem isDue_spec (nextReview : Option Nat) (now : Nat) :
    (isDue nextReview now = true ↔
      nextReview = none ∨ ∃ t, nextReview = some t ∧ t ≤ now)
    ∧ isDue none now = true
    ∧ isDue (some now) (now + 1) = true
    ∧ isDue (some (now + 1)) now = false := by
  refine ⟨?_, rfl, ?_, ?_⟩
  · cases nextReview with
    | none => simp [isDue]
    | some t =>
      simp only [isDue, Bool.or_eq_true, beq_iff_eq, decide_eq_true_eq]
      constructor
      · rintro (rfl | h)
        · exact Or.inr ⟨0, rfl, Nat.zero_le now⟩
        · exact Or.inr ⟨t, rfl, h⟩
      · rintro (h | ⟨u, hu, hle⟩)
        · exact absurd h (by simp)
        · cases hu; exact Or.inr hle
  · simp [isDue, Nat.le_succ]
  · simp [isDue]

/-- `onStartStudy` in `App`:
`setStudyQueue([...savedWords].sort(() => Math.random() - 0.5))` — the study
queue handed to the session is the whole saved word deck, shuffled.  The
shuffle is modelled as an explicit permutation function. -/
def onStartStudy (savedWords : List WordData)
    (shuffle : List WordData → List WordData) : List WordData :=
  shuffle savedWords

/-- The queue-initialisation effect of `StudySession`:
`useEffect(() => { if (words.length > 0) setQueue(words); }, [words])`
applied to the initial empty queue. -/
def initQueue (words : List WordData) : List WordData :=
  if words.length > 0 then words else []

/-- A saved word with every content field blank, used for concrete runs. -/
def mkWord (w : String) (level : Option Nat) (nextReview : Option Nat) :
    WordData :=
  { word := w, meaning_vi := "", definition_en := "", ipa := "",
    syllables := "", spelling_tip := "", part_of_speech := "",
    example_en := "", example_vi := "", example_b2_en := "",
    example_b2_vi := "", root_word := "", mnemonic := "", synonyms := [],
    antonyms := [], word_family := [], collocations := [],
    srs_level := level, next_review := nextReview }

/-- C5 counterexample: the caller does not filter to due items.  A deck
holding a single word whose `next_review` is 10 starts a session at time 5:
the word is in the initial study queue yet is not due. -/
theorem studyQueue_contains_undue_item :
    mkWord "apple" (some 3) (some 10) ∈
      initQueue (onStartStudy [mkWord "apple" (some 3) (some 10)] id)
    ∧ isDue (mkWord "apple" (some 3) (some 10)).next_review 5 = false := by
  constructor
  · simp [initQueue, onStartStudy]
  · decide

/-- C5 amended: the study queue at session start is the caller-supplied
list, and the caller supplies the entire saved word deck shuffled (not
filtered to due items); hence the queue is a permutation of the saved deck
and its items need not be due. -/
theorem studyQueue_init_amended (savedWords : List WordData)
    (shuffle : List WordData → List WordData)
    (hs : ∀ l, (shuffle l).Perm l) :
    (initQueue (onStartStudy savedWords shuffle)).Perm savedWords := by
  unfold initQueue onStartStudy
  by_cases h : (shuffle savedWords).length > 0
  · simpa [h] using hs savedWords
  · have hnil : shuffle savedWords = [] :=
      List.eq_nil_of_length_eq_zero (Nat.eq_zero_of_not_pos h)
    have hlen := (hs savedWords).length_eq
    rw [hnil] at hlen
    have hsw : savedWords = [] := List.eq_nil_of_length_eq_zero hlen.symm
    subst hsw
    simp [h]

/-- Witness for `studyQueue_init_amended` on a concrete one-word deck. -/
theorem studyQueue_init_amended_witness :
    (initQueue (onStartStudy [mkWord "apple" none none] id)).Perm
      [mkWord "apple" none none] :=
  studyQueue_init_amended [mkWord "apple" none none] id
    (fun l => List.Perm.refl l)

/-- JavaScript `String.prototype.trim` on the ASCII fragment the app
handles: drop whitespace characters from both ends.  (Modelled by
structural recursion on the character list so that concrete inputs
evaluate.) -/
def jsTrim (s : String) : String :=
  ⟨((s.data.dropWhile Char.isWhitespace).reverse.dropWhile
      Char.isWhitespace).reverse⟩

/-- JavaScript `String.prototype.toLowerCase` on the ASCII fragment the app
handles: lower-case every character. -/
def jsToLower (s : String) : String :=
  ⟨s.data.map Char.toLower⟩

/-- `handleCheckTyping` of `StudySession`: a blank input returns without
any state change (`none`); otherwise it returns the pair
(`isCorrectAnswer`, `isAnswered`) that is stored, where
`correct = userInput.trim().toLowerCase() === currentWord.word.toLowerCase()`
(the canonical word is lower-cased but not trimmed) and `isAnswered` is set
to `true`. -/
def handleCheckTyping (userInput : String) (currentWordText : String) :
    Option (Bool × Bool) :=
  if jsTrim userInput = "" then none
  else some (jsToLower (jsTrim userInput) == jsToLower currentWordText, true)

/-- C6 counterexample: for the canonical word `"a "` (trailing blank) and
the submitted input `"a"`, the code marks the answer wrong, although the
claim's comparison — both sides trimmed and lower-cased — makes them
equal. -/
theorem typing_canonical_not_trimmed :
    handleCheckTyping "a" "a " = some (false, true)
    ∧ jsToLower (jsTrim "a") = jsToLower (jsTrim "a ") := by
  constructor
  · decide
  · decide

/-- C6 amended: for every non-blank submitted input, the correctness flag
is true exactly when the input, trimmed and lower-cased, equals the
canonical word lower-cased (the canonical word is not trimmed); submitting
also sets the answered flag. -/
theorem typing_check_spec (userInput : String) (currentWordText : String)
    (h : jsTrim userInput ≠ "") :
    handleCheckTyping userInput currentWordText =
      some (jsToLower (jsTrim userInput) == jsToLower currentWordText,
        true) := by
  simp [handleCheckTyping, h]

/-- Witness for `typing_check_spec` at a concrete input and word. -/
theorem typing_check_spec_witness :
    handleCheckTyping " Apple " "apple" =
      some (jsToLower (jsTrim " Apple ") == jsToLower "apple", true) :=
  typing_check_spec " Apple " "apple" (by decide)

/-- The three study modes of `StudySession`. -/
inductive StudyMode where
  | flashcard
  | typing
  | quiz
  deriving DecidableEq, Repr

/-- The three screens `StudySession` can render. -/
inductive SessionView where
  | modeSelect
  | complete (reviewed : Nat) (forgotten : Nat)
  | active (index : Nat)
  deriving DecidableEq, Repr

/-- The render dispatch of `StudySession`: the mode-select screen when no
mode is chosen and the queue is non-empty; the completion screen (showing
`sessionStats`) when the queue is empty or `currentIndex` has passed its
end; otherwise the active card at `currentIndex`. -/
def renderSession (studyMode : Option StudyMode) (queue : List WordData)
    (currentIndex : Nat) (stats : SessionStats) : SessionView :=
  if studyMode = none ∧ queue.length > 0 then SessionView.modeSelect
  else if queue.length = 0 ∨ currentIndex ≥ queue.length then
    SessionView.complete stats.reviewed stats.forgotten
  else SessionView.active currentIndex

/-- `handleRate` at the session level: `currentWord = queue[currentIndex]`
is guarded by `if (!currentWord) return;`, so an out-of-range index changes
nothing; otherwise the item is rated, the updated item is passed to
`onUpdateWord`, and the index advances by one. -/
def handleRateStep (queue : List WordData) (currentIndex : Nat)
    (rating : Rating) (now : Nat) (stats : SessionStats) :
    SessionStats × Option WordData × Nat :=
  match queue.get? currentIndex with
  | none => (stats, none, currentIndex)
  | some w =>
    let rated := handleRate w rating now stats
    (rated.2, some rated.1, currentIndex + 1)

/-- C7: an empty input queue renders the completion screen with
`reviewed = 0` and `forgotten = 0` for every mode and index; rating on an
empty queue changes nothing (the current-item access is guarded); and the
active screen is only rendered when `currentIndex` is in bounds. -/
theorem empty_queue_completes :
    (∀ (mode : Option StudyMode) (idx : Nat),
      renderSession mode (initQueue []) idx initStats =
        SessionView.complete 0 0)
    ∧ (∀ (idx : Nat) (rating : Rating) (now : Nat) (stats : SessionStats),
        handleRateStep [] idx rating now stats = (stats, none, idx))
    ∧ (∀ (mode : Option StudyMode) (queue : List WordData) (idx : Nat)
        (stats : SessionStats) (j : Nat),
        renderSession mode queue idx stats = SessionView.active j →
          idx < queue.length) := by
  refine ⟨?_, ?_, ?_⟩
  · intro mode idx
    simp [renderSession, initQueue, initStats]
  · intro idx rating now stats
    simp [handleRateStep]
  · intro mode queue idx stats j h
    by_contra hlt
    push_neg at hlt
    have h2 : queue.length = 0 ∨ idx ≥ queue.length := Or.inr hlt
    unfold renderSession at h
    by_cases h1 : mode = none ∧ queue.length > 0
    · rw [if_pos h1] at h
      exact SessionView.noConfusion h
    · rw [if_neg h1, if_pos h2] at h
      exact SessionView.noConfusion h

/-- Witness for `empty_queue_completes` (third conjunct) on a concrete
one-item queue rendered in active flashcard state. -/
theorem empty_queue_completes_witness :
    0 < ([mkWord "apple" none none] : List WordData).length :=
  empty_queue_completes.2.2 (some StudyMode.flashcard)
    [mkWord "apple" none none] 0 initStats 0 (by decide)

/-- Cache key for word lookups: `input.trim().toLowerCase()`. -/
def normalizeWordKey (input : String) : String :=
  jsToLower (jsTrim input)

/-- Cache key for sentence lookups: `input.trim()` (case preserved). -/
def normalizeSentenceKey (input : String) : String :=
  jsTrim input

/-- The shared shape of `lookupWord` / `lookupSentence` in
`geminiService`: normalise the input, return the cached record when the
key is present (no AI call), otherwise call the AI on the normalised key
and cache the result.  The cache (`Map`) is modelled as an association
list with the most recent insertion first; the returned `Bool` records
whether the external AI call happened. -/
def cachedLookup {α : Type} (norm : String → String) (ai : String → α)
    (cache : List (String × α)) (input : String) :
    α × List (String × α) × Bool :=
  let normalized := norm input
  match cache.lookup normalized with
  | some cached => (cached, cache, false)
  | none =>
    let result := ai normalized
    (result, (normalized, result) :: cache, true)

/-- `lookupWord` of `geminiService` (the AI call is the oracle `ai`). -/
def lookupWord (ai : String → WordData) (cache : List (String × WordData))
    (input : String) : WordData × List (String × WordData) × Bool :=
  cachedLookup normalizeWordKey ai cache input

/-- `lookupSentence` of `geminiService`. -/
def lookupSentence (ai : String → SentenceData)
    (cache : List (String × SentenceData)) (input : String) :
    SentenceData × List (String × SentenceData) × Bool :=
  cachedLookup normalizeSentenceKey ai cache input

/-- After a lookup, a second lookup whose input normalises to the same key
is a hit: same record, unchanged cache, no AI call. -/
theorem cachedLookup_second_hit {α : Type} (norm : String → String)
    (ai : String → α) (cache : List (String × α)) (i1 i2 : String)
    (h : norm i1 = norm i2) :
    (cachedLookup norm ai (cachedLookup norm ai cache i1).2.1 i2).1 =
      (cachedLookup norm ai cache i1).1
    ∧ (cachedLookup norm ai (cachedLookup norm ai cache i1).2.1 i2).2.1 =
        (cachedLookup norm ai cache i1).2.1
    ∧ (cachedLookup norm ai (cachedLookup norm ai cache i1).2.1 i2).2.2 =
        false := by
  unfold cachedLookup
  rw [← h]
  cases hcase : cache.lookup (norm i1) with
  | some cached => simp [hcase]
  | none => simp [hcase, List.lookup]

/-- C8: two word lookups whose inputs normalise to the same trimmed,
lower-cased key — and two sentence lookups whose inputs normalise to the
same trimmed, case-preserving key — make the second lookup a cache hit: it
returns the previously cached record, leaves the cache unchanged, and
performs no second AI call.  In particular `"Hello"` and `"hello"` share a
word key. -/
theorem lookup_cache_hit (aiW : String → WordData)
    (aiS : String → SentenceData) (cw : List (String × WordData))
    (cs : List (String × SentenceData)) (i1 i2 j1 j2 : String)
    (hw : normalizeWordKey i1 = normalizeWordKey i2)
    (hs : normalizeSentenceKey j1 = normalizeSentenceKey j2) :
    ((lookupWord aiW (lookupWord aiW cw i1).2.1 i2).1 =
        (lookupWord aiW cw i1).1
      ∧ (lookupWord aiW (lookupWord aiW cw i1).2.1 i2).2.1 =
          (lookupWord aiW cw i1).2.1
      ∧ (lookupWord aiW (lookupWord aiW cw i1).2.1 i2).2.2 = false)
    ∧ ((lookupSentence aiS (lookupSentence aiS cs j1).2.1 j2).1 =
        (lookupSentence aiS cs j1).1
      ∧ (lookupSentence aiS (lookupSentence aiS cs j1).2.1 j2).2.1 =
          (lookupSentence aiS cs j1).2.1
      ∧ (lookupSentence aiS (lookupSentence aiS cs j1).2.1 j2).2.2 = false)
    ∧ normalizeWordKey "Hello" = normalizeWordKey "hello" := by
  exact ⟨cachedLookup_second_hit normalizeWordKey aiW cw i1 i2 hw,
    cachedLookup_second_hit normalizeSentenceKey aiS cs j1 j2 hs,
    by decide⟩

/-- Witness for `lookup_cache_hit`: looking up `"Hello"` then `"hello"`
against the empty caches triggers no second AI call. -/
theorem lookup_cache_hit_witness :
    (lookupWord (fun s => mkWord s none none)
        (lookupWord (fun s => mkWord s none none) [] "Hello").2.1
        "hello").2.2 = false :=
  (lookup_cache_hit (fun s => mkWord s none none)
    (fun s => ⟨s, "", "", "", 0, [], none, none⟩) [] [] "Hello" "hello"
    "x" "x" (by decide) rfl).1.2.2

/-- The events `handleSearch` reacts to: a form submission with the raw
query text, and the arrival (success or failure) of the asynchronous
lookup issued for a given clean query. -/
inductive SearchEvent (α : Type) where
  | submit (query : String)
  | arriveOk (query : String) (result : α)
  | arriveErr (query : String)

/-- The search-related state of `App`: `latestQueryRef.current`, the
displayed result (tagged with the clean query that produced it), the
`loading` flag and the `error` flag. -/
structure SearchState (α : Type) where
  latest : String
  displayed : Option (String × α)
  loading : Bool
  error : Bool
  deriving DecidableEq, Repr

/-- The initial search state of `App`. -/
def searchInit {α : Type} : SearchState α :=
  { latest := "", displayed := none, loading := false, error := false }

/-- One step of `handleSearch`: a submit with blank trimmed query returns
early; otherwise it records the clean query in `latestQueryRef`, sets
`loading` and clears `error`.  An arriving result (or error) is committed
— and `loading` cleared — only under the guard
`latestQueryRef.current === cleanQuery`; `latest` is written only by
submits, so the result guard and the `finally` guard coincide. -/
def searchStep {α : Type} (s : SearchState α) (e : SearchEvent α) :
    SearchState α :=
  match e with
  | .submit q =>
    let cleanQuery := jsTrim q
    if cleanQuery = "" then s
    else { s with latest := cleanQuery, loading := true, error := false }
  | .arriveOk q r =>
    if s.latest = q then { s with displayed := some (q, r), loading := false }
    else s
  | .arriveErr q =>
    if s.latest = q then { s with error := true, loading := false }
    else s

/-- Running `handleSearch` over a whole event trace. -/
def searchRun {α : Type} (s : SearchState α) (events : List (SearchEvent α)) :
    SearchState α :=
  events.foldl searchStep s

/-- The displayed-result correspondence: whenever nothing is loading and no
error is shown, the displayed result (if any) was produced for the
most recently submitted query. -/
def SearchInv {α : Type} (s : SearchState α) : Prop :=
  s.loading = false → s.error = false →
    s.displayed = none ∨ ∃ r, s.displayed = some (s.latest, r)

theorem searchInv_step {α : Type} (s : SearchState α) (e : SearchEvent α)
    (hs : SearchInv s) : SearchInv (searchStep s e) := by
  cases e with
  | submit q =>
    by_cases hq : jsTrim q = ""
    · simpa [searchStep, hq] using hs
    · intro hl
      simp [searchStep, hq] at hl
  | arriveOk q r =>
    by_cases hq : s.latest = q
    · intro _ _
      subst hq
      exact Or.inr ⟨r, by simp [searchStep]⟩
    · simpa [searchStep, hq] using hs
  | arriveErr q =>
    by_cases hq : s.latest = q
    · intro _ he
      simp [searchStep, hq] at he
    · simpa [searchStep, hq] using hs

theorem searchInv_run {α : Type} (events : List (SearchEvent α))
    (s : SearchState α) (hs : SearchInv s) : SearchInv (searchRun s events) := by
  induction events generalizing s with
  | nil => exact hs
  | cons e rest ih => exact ih (searchStep s e) (searchInv_step s e hs)

/-- C9: (i) in the scenario submit A, submit B (both non-blank, with
distinct clean queries), then A's result arriving after B was submitted,
the stale arrival of A changes nothing and the arrival of B displays B's
result; (ii) in general an arrival changes the displayed result only when
its originating query is the latest submitted one, and then the displayed
result is exactly that arrival's; (iii) over every event trace from the
initial state, whenever neither loading nor error is shown the displayed
result was produced for the latest submitted query. -/
theorem stale_results_suppressed {α : Type} (s0 : SearchState α)
    (qA qB : String) (rA rB : α) (hA : jsTrim qA ≠ "")
    (hB : jsTrim qB ≠ "") (hAB : jsTrim qA ≠ jsTrim qB) :
    ((searchRun s0
        [SearchEvent.submit qA, SearchEvent.submit qB,
          SearchEvent.arriveOk (jsTrim qA) rA]).displayed =
      (searchRun s0 [SearchEvent.submit qA, SearchEvent.submit qB]).displayed
    ∧ (searchRun s0
        [SearchEvent.submit qA, SearchEvent.submit qB,
          SearchEvent.arriveOk (jsTrim qA) rA,
          SearchEvent.arriveOk (jsTrim qB) rB]).displayed =
        some (jsTrim qB, rB))
    ∧ (∀ (s : SearchState α) (q : String) (r : α),
        (searchStep s (SearchEvent.arriveOk q r)).displayed ≠ s.displayed →
          q = s.latest ∧
            (searchStep s (SearchEvent.arriveOk q r)).displayed =
              some (q, r))
    ∧ (∀ events : List (SearchEvent α),
        SearchInv (searchRun (searchInit : SearchState α) events)) := by
  have hBA : jsTrim qB ≠ jsTrim qA := Ne.symm hAB
  refine ⟨⟨?_, ?_⟩, ?_, ?_⟩
  · simp [searchRun, searchStep, hA, hB, hBA]
  · simp [searchRun, searchStep, hA, hB, hBA]
  · intro s q r hne
    by_cases hq : s.latest = q
    · exact ⟨hq.symm, by simp [searchStep, hq]⟩
    · exact absurd (by simp [searchStep, hq]) hne
  · intro events
    exact searchInv_run events searchInit (fun _ _ => Or.inl rfl)

/-- Witness for `stale_results_suppressed` with queries `"a"`, `"b"` and
numeric results: after the full scenario only B's result is displayed. -/
theorem stale_results_suppressed_witness :
    (searchRun (searchInit : SearchState Nat)
        [SearchEvent.submit "a", SearchEvent.submit "b",
          SearchEvent.arriveOk (jsTrim "a") 0,
          SearchEvent.arriveOk (jsTrim "b") 1]).displayed =
      some (jsTrim "b", 1) :=
  (stale_results_suppressed searchInit "a" "b" 0 1 (by decide) (by decide)
    (by decide)).1.2

/-- `generateQuizOptions` of `StudySession`: with fewer than 2 deck items
the options are just the correct word; otherwise the deck items whose word
differs from the correct word are shuffled, the first three are kept as
distractor texts, the correct word is appended and the whole list is
shuffled again.  The two `.sort(() => Math.random() - 0.5)` shuffles are
modelled as explicit permutation functions. -/
def generateQuizOptions (words : List WordData) (correctWord : String)
    (shuffleW : List WordData → List WordData)
    (shuffleS : List String → List String) : List String :=
  if words.length < 2 then [correctWord]
  else
    let distractors :=
      ((shuffleW (words.filter (fun w => w.word ≠ correctWord))).take 3).map
        (fun w => w.word)
    shuffleS (distractors ++ [correctWord])

/-- Removing the (unique) item carrying `correctWord` from a deck with
pairwise distinct word texts drops the length by exactly one. -/
theorem filter_word_ne_length (correctWord : String) (l : List WordData)
    (hnd : (l.map (fun w => w.word)).Nodup)
    (hc : correctWord ∈ l.map (fun w => w.word)) :
    (l.filter (fun w => w.word ≠ correctWord)).length = l.length - 1 := by
  induction l with
  | nil => simp at hc
  | cons a t ih =>
    simp only [List.map_cons, List.nodup_cons] at hnd
    obtain ⟨hna, hnt⟩ := hnd
    by_cases ha : a.word = correctWord
    · have hall : List.filter (fun w => decide (w.word ≠ correctWord)) t = t := by
        apply List.filter_eq_self.mpr
        intro w hw
        have hwne : w.word ≠ correctWord := fun hEq =>
          hna (List.mem_map.mpr ⟨w, hw, hEq.trans ha.symm⟩)
        simp [hwne]
      have hstep : List.filter (fun w => decide (w.word ≠ correctWord)) (a :: t)
          = List.filter (fun w => decide (w.word ≠ correctWord)) t := by
        simp [List.filter_cons, ha]
      rw [hstep, hall]
      simp
    · have hc2 : correctWord ∈ t.map (fun w => w.word) := by
        rw [List.map_cons] at hc
        rcases List.mem_cons.mp hc with h | h
        · exact absurd h.symm ha
        · exact h
      have hlen := ih hnt hc2
      have hpos : 0 < t.length := by
        rcases List.mem_map.mp hc2 with ⟨w, hw, _⟩
        exact List.length_pos.mpr (List.ne_nil_of_mem hw)
      simp only [List.filter_cons, decide_eq_true_eq]
      rw [if_pos (by simpa using ha)]
      simp only [List.length_cons, hlen]
      omega

/-- C4: for a deck with pairwise distinct word texts that contains the
current word: with at least 4 items the generated option list holds
exactly one occurrence of the correct word and exactly 3 distinct
distractors, all drawn from the deck and none equal to the correct word;
with fewer than 2 items the option list is exactly `[correctWord]`. -/
theorem generateQuizOptions_spec (words : List WordData)
    (correctWord : String) (shuffleW : List WordData → List WordData)
    (shuffleS : List String → List String)
    (hW : ∀ l, (shuffleW l).Perm l) (hS : ∀ l, (shuffleS l).Perm l)
    (hnd : (words.map (fun w => w.word)).Nodup) :
    (4 ≤ words.length → correctWord ∈ words.map (fun w => w.word) →
      ((generateQuizOptions words correctWord shuffleW shuffleS).count
          correctWord = 1
        ∧ ((generateQuizOptions words correctWord shuffleW shuffleS).filter
            (fun x => x ≠ correctWord)).length = 3
        ∧ ((generateQuizOptions words correctWord shuffleW shuffleS).filter
            (fun x => x ≠ correctWord)).Nodup
        ∧ ∀ x ∈ generateQuizOptions words correctWord shuffleW shuffleS,
            x ∈ words.map (fun w => w.word)))
    ∧ (words.length < 2 →
        generateQuizOptions words correctWord shuffleW shuffleS =
          [correctWord]) := by
  constructor
  · intro h4 hc
    have hn2 : ¬ words.length < 2 := by omega
    set fl := words.filter (fun w => w.word ≠ correctWord) with hfl
    have hflen : fl.length = words.length - 1 :=
      filter_word_ne_length correctWord words hnd hc
    have hfl3 : 3 ≤ fl.length := by omega
    have hperm1 : (shuffleW fl).Perm fl := hW fl
    have hslen : (shuffleW fl).length = fl.length := hperm1.length_eq
    set d := ((shuffleW fl).take 3).map (fun w => w.word) with hd
    have hdlen : d.length = 3 := by
      simp only [hd, List.length_map, List.length_take, hslen]
      omega
    have hdne : ∀ x ∈ d, x ≠ correctWord := by
      intro x hx
      rcases List.mem_map.mp hx with ⟨w, hw, rfl⟩
      have hw3 : w ∈ fl := hperm1.mem_iff.mp (List.take_subset 3 _ hw)
      simpa using List.of_mem_filter hw3
    have hdmem : ∀ x ∈ d, x ∈ words.map (fun w => w.word) := by
      intro x hx
      rcases List.mem_map.mp hx with ⟨w, hw, rfl⟩
      have hw3 : w ∈ fl := hperm1.mem_iff.mp (List.take_subset 3 _ hw)
      exact List.mem_map.mpr ⟨w, List.mem_of_mem_filter hw3, rfl⟩
    have hdnd : d.Nodup := by
      have h1 : (fl.map (fun w => w.word)).Nodup :=
        List.Nodup.sublist ((List.filter_sublist words).map (fun w => w.word))
          hnd
      have h2 : ((shuffleW fl).map (fun w => w.word)).Nodup :=
        ((hperm1.map (fun w => w.word)).nodup_iff).mpr h1
      have h3 : d = ((shuffleW fl).map (fun w => w.word)).take 3 := by
        simp [hd, List.map_take]
      rw [h3]
      exact List.Nodup.sublist (List.take_sublist 3 _) h2
    have hopts : generateQuizOptions words correctWord shuffleW shuffleS =
        shuffleS (d ++ [correctWord]) := by
      simp only [generateQuizOptions, if_neg hn2]
    have hperm2 : (shuffleS (d ++ [correctWord])).Perm (d ++ [correctWord]) :=
      hS (d ++ [correctWord])
    have hcount0 : d.count correctWord = 0 :=
      List.count_eq_zero.mpr (fun h => hdne correctWord h rfl)
    have hfiltd : (d ++ [correctWord]).filter (fun x => decide (x ≠ correctWord)) = d := by
      rw [List.filter_append]
      have hl : d.filter (fun x => decide (x ≠ correctWord)) = d :=
        List.filter_eq_self.mpr (fun a ha => by simpa using hdne a ha)
      have hr : List.filter (fun x => decide (x ≠ correctWord)) [correctWord] = [] := by
        simp
      rw [hl, hr, List.append_nil]
    have hfperm : ((shuffleS (d ++ [correctWord])).filter
        (fun x => decide (x ≠ correctWord))).Perm d := by
      have := hperm2.filter (fun x => decide (x ≠ correctWord))
      rwa [hfiltd] at this
    refine ⟨?_, ?_, ?_, ?_⟩
    · rw [hopts, hperm2.count_eq]
      simp [List.count_append, hcount0]
    · rw [hopts]
      exact hfperm.length_eq.trans hdlen
    · rw [hopts]
      exact hfperm.nodup_iff.mpr hdnd
    · intro x hx
      rw [hopts] at hx
      rcases List.mem_append.mp (hperm2.mem_iff.mp hx) with h | h
      · exact hdmem x h
      · rw [List.mem_singleton.mp h]
        exact hc
  · intro h2
    simp [generateQuizOptions, h2]

/-- Witness for `generateQuizOptions_spec` on a concrete 4-word deck with
identity shuffles: the correct word appears exactly once. -/
theorem generateQuizOptions_spec_witness :
    (generateQuizOptions
        [mkWord "a" none none, mkWord "b" none none, mkWord "c" none none,
          mkWord "d" none none] "a" id id).count "a" = 1 :=
  ((generateQuizOptions_spec
      [mkWord "a" none none, mkWord "b" none none, mkWord "c" none none,
        mkWord "d" none none] "a" id id (fun l => List.Perm.refl l)
      (fun l => List.Perm.refl l) (by decide)).1 (by decide) (by decide)).1
